import Mathlib

/-!
Verification of the conversation/tool-orchestration engine of SearchMind
(a Go MCP host CLI).  The definitions below are shallow embeddings of the
functions in `cmd/root.go` and the MCP client/config helpers; theorems settle
the specification claims about the history pruner, the retry policy, tool-name
resolution, tool dispatch, the session loop's error handling, and the
transactional client setup.
-/

set_option maxRecDepth 4000

namespace SearchMind

/-! ## Data model

`history.ContentBlock` in the Go code has fields Type, Text, ID, ToolUseID,
Name, Input and an untyped Content payload.  The nested Content payload holds
MCP content items (only their text is ever read), modelled by `MCPItem`.
-/

/-- One MCP content item carried inside a `tool_result` block: either a text
item (whose text the engine concatenates) or some other content kind. -/
structure MCPItem where
  isText : Bool
  text : String
deriving DecidableEq, Repr

/-- Shallow embedding of `history.ContentBlock`: `type` is one of "text",
"tool_use", "tool_result"; unused fields default to the empty string. -/
structure ContentBlock where
  type : String
  id : String := ""
  toolUseID : String := ""
  text : String := ""
  name : String := ""
  input : String := ""
  content : List MCPItem := []
deriving DecidableEq, Repr

/-- Shallow embedding of `history.HistoryMessage`: a role plus content blocks. -/
structure HistoryMessage where
  role : String
  content : List ContentBlock
deriving DecidableEq, Repr

/-! ## History pruner (`pruneMessages`, cmd/root.go lines 165-219) -/

/-- First pass of `pruneMessages`: collect all `tool_use` block ids in the
kept window (the Go `toolUseIds` map). -/
def collectToolUseIds (msgs : List HistoryMessage) : List String :=
  msgs.flatMap fun m =>
    m.content.filterMap fun b => if b.type = "tool_use" then some b.id else none

/-- First pass of `pruneMessages`: collect all `tool_use_id`s referenced by
`tool_result` blocks in the kept window (the Go `toolResultIds` map). -/
def collectToolResultIds (msgs : List HistoryMessage) : List String :=
  msgs.flatMap fun m =>
    m.content.filterMap fun b => if b.type = "tool_result" then some b.toolUseID else none

/-- Block-level filter of the second pass: a `tool_use` block is kept iff some
`tool_result` in the window references its id, a `tool_result` block is kept
iff its referenced id belongs to some `tool_use` in the window, and every
other block is kept. -/
def keepBlock (useIds resIds : List String) (b : ContentBlock) : Bool :=
  if b.type = "tool_use" then decide (b.id ∈ resIds)
  else if b.type = "tool_result" then decide (b.toolUseID ∈ useIds)
  else true

/-- Message-level retention of the second pass, mirroring the Go
conditionals (`prunedBlocks` is written out as the filtered content):
assistant messages need a surviving block; other messages are kept when a
block survived or the original content had a text block. -/
def retainMessage (useIds resIds : List String) (msg : HistoryMessage) :
    Option HistoryMessage :=
  if (0 < (msg.content.filter (keepBlock useIds resIds)).length ∧ msg.role = "assistant") ∨
      msg.role ≠ "assistant" then
    if 0 < (msg.content.filter (keepBlock useIds resIds)).length ∨
        msg.content.any (fun b => b.type = "text") then
      some { msg with content := msg.content.filter (keepBlock useIds resIds) }
    else none
  else none

/-- The window kept by `pruneMessages`: the last `w` messages. -/
def keptWindow (w : Nat) (messages : List HistoryMessage) : List HistoryMessage :=
  messages.drop (messages.length - w)

/-- Shallow embedding of `pruneMessages` (cmd/root.go): return histories of at
most `w` messages unchanged, otherwise keep the last `w` messages and drop
unpaired tool blocks and emptied messages. -/
def pruneMessages (w : Nat) (messages : List HistoryMessage) : List HistoryMessage :=
  if messages.length ≤ w then messages
  else
    (keptWindow w messages).filterMap
      (retainMessage (collectToolUseIds (keptWindow w messages))
        (collectToolResultIds (keptWindow w messages)))

/-- The pairing property claimed for pruned histories: every surviving
`tool_use` id is referenced by a surviving `tool_result` and vice versa. -/
def pairingInvariant (msgs : List HistoryMessage) : Prop :=
  ∀ m ∈ msgs, ∀ b ∈ m.content,
    (b.type = "tool_use" →
      ∃ m2 ∈ msgs, ∃ b2 ∈ m2.content, b2.type = "tool_result" ∧ b2.toolUseID = b.id) ∧
    (b.type = "tool_result" →
      ∃ m2 ∈ msgs, ∃ b2 ∈ m2.content, b2.type = "tool_use" ∧ b2.id = b.toolUseID)

instance (msgs : List HistoryMessage) : Decidable (pairingInvariant msgs) := by
  unfold pairingInvariant
  infer_instance

/-- The uniform retention rule described by the refinement claim: keep a
message iff at least one of its blocks survives block-level filtering. -/
def retainMessageUniform (useIds resIds : List String) (msg : HistoryMessage) :
    Option HistoryMessage :=
  if 0 < (msg.content.filter (keepBlock useIds resIds)).length then
    some { msg with content := msg.content.filter (keepBlock useIds resIds) }
  else none

/-- `pruneMessages` with the uniform retention rule in place of the
asymmetric one (the comparison definition for the refinement claim). -/
def pruneMessagesUniform (w : Nat) (messages : List HistoryMessage) : List HistoryMessage :=
  if messages.length ≤ w then messages
  else
    (keptWindow w messages).filterMap
      (retainMessageUniform (collectToolUseIds (keptWindow w messages))
        (collectToolResultIds (keptWindow w messages)))

/-! ## Retry policy (`runPrompt` retry loop, cmd/root.go lines 44-49, 269-305)

Durations are modelled in whole seconds (the Go constants are 1s and 30s). -/

/-- Go constant `initialBackoff = 1 * time.Second`, in seconds. -/
def initialBackoff : Nat := 1

/-- Go constant `maxBackoff = 30 * time.Second`, in seconds. -/
def maxBackoff : Nat := 30

/-- Go constant `maxRetries = 5`. -/
def maxRetries : Nat := 5

/-- Outcome of one `provider.CreateMessage` attempt: success, an error whose
text contains "overloaded_error" (transient), or any other error. -/
inductive CallOutcome
  | success
  | overloaded
  | failure
deriving DecidableEq, Repr

/-- Result of the whole retry loop. -/
inductive RetryResult
  | gotMessage
  | overloadedGiveUp
  | fatalError
deriving DecidableEq, Repr

/-- Shallow embedding of the retry loop of `runPrompt`: `outcome n` is the
result of the attempt made with retry counter `n`.  Returns the loop outcome
together with the list of individual sleep durations performed, in order. -/
def retryLoop (outcome : Nat → CallOutcome) (backoff retries : Nat) :
    RetryResult × List Nat :=
  match outcome retries with
  | .success => (.gotMessage, [])
  | .failure => (.fatalError, [])
  | .overloaded =>
    if h : maxRetries ≤ retries then (.overloadedGiveUp, [])
    else
      let doubled := backoff * 2
      let next := retryLoop outcome (if maxBackoff < doubled then maxBackoff else doubled)
        (retries + 1)
      (next.1, backoff :: next.2)
termination_by maxRetries - retries
decreasing_by omega

/-! ## Tool-name resolution (`runPrompt`, cmd/root.go lines 353-360, and
`mcpToolsToAnthropicTools`, clients helper) -/

/-- Model of Go `strings.Split(s, sep)` for the fixed separator `"__"`:
splits on each leftmost non-overlapping occurrence of two underscores. -/
def splitDoubleUnderscore (l : List Char) : List (List Char) :=
  match l with
  | '_' :: '_' :: rest => [] :: splitDoubleUnderscore rest
  | c :: rest =>
    match splitDoubleUnderscore rest with
    | [] => [[c]]
    | chunk :: chunks => (c :: chunk) :: chunks
  | [] => [[]]

/-- Tool-name resolution of `runPrompt`: `strings.Split(name, "__")` must
yield exactly two parts `(serverName, toolName)`; otherwise the name is
malformed. -/
def resolveToolName (name : String) : Option (String × String) :=
  match splitDoubleUnderscore name.toList with
  | [a, b] => some (⟨a⟩, ⟨b⟩)
  | _ => none

/-- A tool as reported by an MCP server (name and description only; the input
schema is carried along unchanged by the Go code). -/
structure MCPTool where
  name : String
  description : String
deriving DecidableEq, Repr

/-- A tool in the catalogue handed to the LLM provider. -/
structure LLMTool where
  name : String
  description : String
deriving DecidableEq, Repr

/-- Shallow embedding of `mcpToolsToAnthropicTools`: prefix each tool name
with `serverName ++ "__"`. -/
def mcpToolsToAnthropicTools (serverName : String) (mcpTools : List MCPTool) :
    List LLMTool :=
  mcpTools.map fun tool => ⟨serverName ++ "__" ++ tool.name, tool.description⟩

/-! ## Tool dispatch (`runPrompt`, cmd/root.go lines 336-442) -/

/-- One model-requested tool call: `GetID()`, `GetName()`, the marshalled
arguments, and whether `json.Unmarshal` of those arguments succeeds. -/
structure ToolCall where
  id : String
  name : String
  input : String
  argsOk : Bool
deriving DecidableEq, Repr

/-- Outcome of `mcpClient.CallTool`: an error, or a result whose Content is
nil (`none`) or a list of MCP content items. -/
inductive InvokeOutcome
  | fail (msg : String)
  | ok (content : Option (List MCPItem))
deriving DecidableEq, Repr

/-- The engine's environment while dispatching: the names of registered MCP
clients and the behaviour of `CallTool` per (server, tool). -/
structure DispatchEnv where
  clients : List String
  invoke : String → String → InvokeOutcome

/-- The `tool_use` block appended to `messageContent` for every tool call. -/
def toolUseBlock (tc : ToolCall) : ContentBlock :=
  { type := "tool_use", id := tc.id, name := tc.name, input := tc.input }

/-- The convenience text summary of a tool result: concatenate the text items
with trailing spaces and trim (Go `resultText` + `strings.TrimSpace`). -/
def summarize (items : List MCPItem) : String :=
  (items.foldl (fun acc it => if it.isText then acc ++ it.text ++ " " else acc) "").trim

/-- The error message printed and embedded when `CallTool` fails
(Go `fmt.Sprintf("调用工具 %s 错误: %v", toolName, err)`). -/
def invokeErrText (toolName msg : String) : String :=
  "调用工具 " ++ toolName ++ " 错误: " ++ msg

/-- What one iteration of the tool-call loop contributes: blocks appended to
`messageContent`, blocks appended to `toolResults`, and error lines printed. -/
structure DispatchOut where
  blocks : List ContentBlock
  results : List ContentBlock
  errors : List String
deriving DecidableEq, Repr

/-- Shallow embedding of one iteration of the tool-call loop in `runPrompt`:
append the `tool_use` block, then resolve the name, look up the client,
unmarshal the arguments, call the tool, and build at most one `tool_result`. -/
def processToolCall (env : DispatchEnv) (tc : ToolCall) : DispatchOut :=
  match resolveToolName tc.name with
  | none => ⟨[toolUseBlock tc], [], ["错误：无效工具名称：" ++ tc.name]⟩
  | some (serverName, toolName) =>
    if serverName ∈ env.clients then
      if tc.argsOk then
        match env.invoke serverName toolName with
        | .fail m =>
          ⟨[toolUseBlock tc],
           [{ type := "tool_result", toolUseID := tc.id,
              content := [⟨true, invokeErrText toolName m⟩] }],
           [invokeErrText toolName m]⟩
        | .ok none => ⟨[toolUseBlock tc], [], []⟩
        | .ok (some items) =>
          ⟨[toolUseBlock tc],
           [{ type := "tool_result", toolUseID := tc.id,
              content := items, text := summarize items }],
           []⟩
      else ⟨[toolUseBlock tc], [], ["解析工具参数失败"]⟩
    else ⟨[toolUseBlock tc], [], ["错误：找不到服务器：" ++ serverName]⟩

/-- The whole tool-call loop: process the calls in order, concatenating the
contributions. -/
def processToolCalls (env : DispatchEnv) : List ToolCall → DispatchOut
  | [] => ⟨[], [], []⟩
  | tc :: rest =>
    let o := processToolCall env tc
    let os := processToolCalls env rest
    ⟨o.blocks ++ os.blocks, o.results ++ os.results, o.errors ++ os.errors⟩

/-- One assistant turn as returned by the provider: role, text content and
the requested tool calls. -/
structure ModelMessage where
  role : String
  content : String
  toolCalls : List ToolCall

/-- Shallow embedding of the turn assembly after a successful model call
(cmd/root.go lines 307-442): build `messageContent` (text block plus
`tool_use` blocks), append the assistant message, append one `tool` message
per tool result, and report whether the continuation model call happens
(iff `toolResults` is non-empty). -/
def assembleTurn (env : DispatchEnv) (msg : ModelMessage)
    (messages : List HistoryMessage) : List HistoryMessage × Bool :=
  let textBlocks : List ContentBlock :=
    if msg.content = "" then [] else [{ type := "text", text := msg.content }]
  let o := processToolCalls env msg.toolCalls
  let withAssistant := messages ++ [{ role := msg.role, content := textBlocks ++ o.blocks }]
  let withTools := withAssistant ++ o.results.map fun tr => ⟨"tool", [tr]⟩
  (withTools, !o.results.isEmpty)

/-! ## Session loop (`runMCPHost`, cmd/root.go lines 544-594) -/

/-- Result of prompting the user for input (the `huh` form). -/
inductive PromptInput
  | aborted
  | inputFailed (e : String)
  | entered (s : String)

/-- What one iteration of the main interaction loop does next. -/
inductive LoopStep
  | next (messages : List HistoryMessage)
  | exitOk
  | exitErr (e : String)
deriving DecidableEq, Repr

/-- Shallow embedding of one iteration of the main loop of `runMCPHost`:
`slash` is `handleSlashCommand` (handled flag or error) and `turn` is
`runPrompt` (updated history or error) applied to the pruned history. -/
def sessionIterate (w : Nat) (messages : List HistoryMessage) (input : PromptInput)
    (slash : String → Except String Bool)
    (turn : List HistoryMessage → Except String (List HistoryMessage)) : LoopStep :=
  match input with
  | .aborted => .exitOk
  | .inputFailed e => .exitErr e
  | .entered prompt =>
    if prompt = "" then .next messages
    else
      match slash prompt with
      | .error e => .exitErr e
      | .ok true => .next messages
      | .ok false =>
        let pruned := if 0 < messages.length then pruneMessages w messages else messages
        match turn pruned with
        | .error e => .exitErr e
        | .ok newMessages => .next newMessages

/-! ## Client setup (`createMCPClients`, clients helper lines 223-299) -/

/-- One configured MCP server together with the behaviour of its connection
attempt: whether client creation (including SSE `Start`) succeeds and whether
the `Initialize` handshake succeeds. -/
structure ServerSpec where
  name : String
  createOk : Bool
  initOk : Bool
deriving DecidableEq, Repr

instance {ε α : Type} [DecidableEq ε] [DecidableEq α] : DecidableEq (Except ε α) :=
  fun x y =>
    match x, y with
    | .error a, .error b =>
      if h : a = b then .isTrue (congrArg Except.error h)
      else .isFalse fun hh => h (Except.error.inj hh)
    | .ok a, .ok b =>
      if h : a = b then .isTrue (congrArg Except.ok h)
      else .isFalse fun hh => h (Except.ok.inj hh)
    | .error _, .ok _ => .isFalse fun hh => Except.noConfusion hh
    | .ok _, .error _ => .isFalse fun hh => Except.noConfusion hh

/-- Observable outcome of `createMCPClients`: which clients were successfully
created, which were closed during rollback, and the error or final map
(client names). -/
structure SetupOut where
  created : List String
  closed : List String
  result : Except String (List String)
deriving DecidableEq, Repr

/-- Shallow embedding of the loop body of `createMCPClients`: on a creation
error close every client in the map so far; on an `Initialize` error close the
current client and then every client in the map so far; otherwise add the
client to the map. -/
def createMCPClientsAux : List ServerSpec → List String → SetupOut
  | [], clients => ⟨clients, [], .ok clients⟩
  | s :: rest, clients =>
    if s.createOk then
      if s.initOk then createMCPClientsAux rest (clients ++ [s.name])
      else
        ⟨clients ++ [s.name], s.name :: clients,
         .error ("初始化 MCP 客户端失败（" ++ s.name ++ "）")⟩
    else ⟨clients, clients, .error ("创建 MCP 客户端失败（" ++ s.name ++ "）")⟩

/-- Shallow embedding of `createMCPClients`, starting from an empty map. -/
def createMCPClients (l : List ServerSpec) : SetupOut :=
  createMCPClientsAux l []

/-! ## Lemmas about the pruner -/

theorem mem_collectToolUseIds {msgs : List HistoryMessage} {s : String} :
    s ∈ collectToolUseIds msgs ↔
      ∃ m ∈ msgs, ∃ b ∈ m.content, b.type = "tool_use" ∧ b.id = s := by
  constructor
  · intro hs
    rcases List.mem_flatMap.mp hs with ⟨m, hm, hmem⟩
    rcases List.mem_filterMap.mp hmem with ⟨b, hb, hbg⟩
    by_cases ht : b.type = "tool_use"
    · rw [if_pos ht] at hbg
      exact ⟨m, hm, b, hb, ht, Option.some.inj hbg⟩
    · rw [if_neg ht] at hbg
      cases hbg
  · rintro ⟨m, hm, b, hb, ht, hid⟩
    exact List.mem_flatMap.mpr
      ⟨m, hm, List.mem_filterMap.mpr ⟨b, hb, by rw [if_pos ht, hid]⟩⟩

theorem mem_collectToolResultIds {msgs : List HistoryMessage} {s : String} :
    s ∈ collectToolResultIds msgs ↔
      ∃ m ∈ msgs, ∃ b ∈ m.content, b.type = "tool_result" ∧ b.toolUseID = s := by
  constructor
  · intro hs
    rcases List.mem_flatMap.mp hs with ⟨m, hm, hmem⟩
    rcases List.mem_filterMap.mp hmem with ⟨b, hb, hbg⟩
    by_cases ht : b.type = "tool_result"
    · rw [if_pos ht] at hbg
      exact ⟨m, hm, b, hb, ht, Option.some.inj hbg⟩
    · rw [if_neg ht] at hbg
      cases hbg
  · rintro ⟨m, hm, b, hb, ht, hid⟩
    exact List.mem_flatMap.mpr
      ⟨m, hm, List.mem_filterMap.mpr ⟨b, hb, by rw [if_pos ht, hid]⟩⟩

theorem keepBlock_use {u r : List String} {b : ContentBlock}
    (ht : b.type = "tool_use") : keepBlock u r b = true ↔ b.id ∈ r := by
  simp [keepBlock, ht]

theorem keepBlock_result {u r : List String} {b : ContentBlock}
    (ht : b.type = "tool_result") : keepBlock u r b = true ↔ b.toolUseID ∈ u := by
  have hne : ¬ b.type = "tool_use" := by rw [ht]; decide
  simp [keepBlock, ht, hne]

theorem keepBlock_other {u r : List String} {b : ContentBlock}
    (h1 : ¬ b.type = "tool_use") (h2 : ¬ b.type = "tool_result") :
    keepBlock u r b = true := by
  simp [keepBlock, h1, h2]

theorem retainMessage_eq_some {u r : List String} {msg m : HistoryMessage}
    (h : retainMessage u r msg = some m) :
    m.role = msg.role ∧ m.content = msg.content.filter (keepBlock u r) := by
  unfold retainMessage at h
  split at h
  · split at h
    · have := Option.some.inj h
      rw [← this]
      exact ⟨rfl, rfl⟩
    · cases h
  · cases h

theorem retainMessage_of_ne_nil {u r : List String} {msg : HistoryMessage}
    (h : msg.content.filter (keepBlock u r) ≠ []) :
    retainMessage u r msg =
      some { msg with content := msg.content.filter (keepBlock u r) } := by
  have hp : 0 < (msg.content.filter (keepBlock u r)).length := List.length_pos.mpr h
  by_cases hr : msg.role = "assistant" <;> simp [retainMessage, hp, hr]

theorem pruneMessages_eq_of_lt {w : Nat} {h : List HistoryMessage}
    (hw : w < h.length) :
    pruneMessages w h =
      (keptWindow w h).filterMap
        (retainMessage (collectToolUseIds (keptWindow w h))
          (collectToolResultIds (keptWindow w h))) := by
  rw [pruneMessages, if_neg (by omega)]

/-- The pairing invariant for the genuinely-pruned case, stated over an
arbitrary kept window. -/
theorem pairing_of_filterMap_retain (kept : List HistoryMessage) :
    pairingInvariant
      (kept.filterMap
        (retainMessage (collectToolUseIds kept) (collectToolResultIds kept))) := by
  intro m hm b hb
  rcases List.mem_filterMap.mp hm with ⟨msg, hmsg, hret⟩
  obtain ⟨hrole, hcontent⟩ := retainMessage_eq_some hret
  rw [hcontent] at hb
  have hbmem := (List.mem_filter.mp hb).1
  have hbkeep := (List.mem_filter.mp hb).2
  constructor
  · intro ht
    have hidr : b.id ∈ collectToolResultIds kept := (keepBlock_use ht).mp hbkeep
    rcases mem_collectToolResultIds.mp hidr with ⟨m2, hm2, b2, hb2, ht2, hid2⟩
    have hidu : b.id ∈ collectToolUseIds kept :=
      mem_collectToolUseIds.mpr ⟨msg, hmsg, b, hbmem, ht, rfl⟩
    have hkeep2 : keepBlock (collectToolUseIds kept) (collectToolResultIds kept) b2 = true :=
      (keepBlock_result ht2).mpr (by rw [hid2]; exact hidu)
    have hmemf : b2 ∈ m2.content.filter
        (keepBlock (collectToolUseIds kept) (collectToolResultIds kept)) :=
      List.mem_filter.mpr ⟨hb2, hkeep2⟩
    have hne : m2.content.filter
        (keepBlock (collectToolUseIds kept) (collectToolResultIds kept)) ≠ [] :=
      List.ne_nil_of_mem hmemf
    exact ⟨{ m2 with content := m2.content.filter (keepBlock (collectToolUseIds kept) (collectToolResultIds kept)) },
      List.mem_filterMap.mpr ⟨m2, hm2, retainMessage_of_ne_nil hne⟩, b2, hmemf, ht2, hid2⟩
  · intro ht
    have hidu : b.toolUseID ∈ collectToolUseIds kept := (keepBlock_result ht).mp hbkeep
    rcases mem_collectToolUseIds.mp hidu with ⟨m2, hm2, b2, hb2, ht2, hid2⟩
    have hidr : b.toolUseID ∈ collectToolResultIds kept :=
      mem_collectToolResultIds.mpr ⟨msg, hmsg, b, hbmem, ht, rfl⟩
    have hkeep2 : keepBlock (collectToolUseIds kept) (collectToolResultIds kept) b2 = true :=
      (keepBlock_use ht2).mpr (by rw [hid2]; exact hidr)
    have hmemf : b2 ∈ m2.content.filter
        (keepBlock (collectToolUseIds kept) (collectToolResultIds kept)) :=
      List.mem_filter.mpr ⟨hb2, hkeep2⟩
    have hne : m2.content.filter
        (keepBlock (collectToolUseIds kept) (collectToolResultIds kept)) ≠ [] :=
      List.ne_nil_of_mem hmemf
    exact ⟨{ m2 with content := m2.content.filter (keepBlock (collectToolUseIds kept) (collectToolResultIds kept)) },
      List.mem_filterMap.mpr ⟨m2, hm2, retainMessage_of_ne_nil hne⟩, b2, hmemf, ht2, hid2⟩

/-- A message that originally contained a text block always has a surviving
block, because the block filter never removes text blocks. -/
theorem filter_ne_nil_of_text {u r : List String} {msg : HistoryMessage}
    (h : msg.content.any (fun b => b.type = "text") = true) :
    msg.content.filter (keepBlock u r) ≠ [] := by
  rcases List.any_eq_true.mp h with ⟨b, hb, hbt⟩
  have hbt' : b.type = "text" := of_decide_eq_true hbt
  have h1 : ¬ b.type = "tool_use" := by rw [hbt']; decide
  have h2 : ¬ b.type = "tool_result" := by rw [hbt']; decide
  exact List.ne_nil_of_mem (List.mem_filter.mpr ⟨hb, keepBlock_other h1 h2⟩)

/-- The asymmetric retention rule agrees with the uniform one on every
message. -/
theorem retainMessage_eq_uniform (u r : List String) (msg : HistoryMessage) :
    retainMessage u r msg = retainMessageUniform u r msg := by
  by_cases hp : 0 < (msg.content.filter (keepBlock u r)).length
  · have hne : msg.content.filter (keepBlock u r) ≠ [] := List.length_pos.mp hp
    rw [retainMessage_of_ne_nil hne, retainMessageUniform, if_pos hp]
  · have htext : ¬ msg.content.any (fun b => b.type = "text") = true := by
      intro h
      exact hp (List.length_pos.mpr (filter_ne_nil_of_text h))
    by_cases hr : msg.role = "assistant" <;>
      simp [retainMessage, retainMessageUniform, hp, hr, htext]

/-- When actual pruning happens, the pruned history has at most `w` messages. -/
theorem pruneMessages_length_le_of_lt {w : Nat} {h : List HistoryMessage}
    (hw : w < h.length) : (pruneMessages w h).length ≤ w := by
  rw [pruneMessages_eq_of_lt hw]
  have h1 := List.length_filterMap_le
    (retainMessage (collectToolUseIds (keptWindow w h))
      (collectToolResultIds (keptWindow w h))) (keptWindow w h)
  have h2 : (keptWindow w h).length = h.length - (h.length - w) := by
    rw [keptWindow, List.length_drop]
  omega

/-! ## Claim theorems -/

/-- C1, counterexample: for a history no longer than the window the pruner
returns it unchanged, so a dangling `tool_use` survives — the claim is false
for arbitrary histories. -/
theorem c1_counterexample :
    ¬ pairingInvariant
      (pruneMessages 5 [⟨"assistant", [{ type := "tool_use", id := "a" }]⟩]) := by
  decide

/-- C1 (amended): whenever the history is longer than the window, so that
pruning actually runs, every surviving `tool_use` id is referenced by a
surviving `tool_result` and every surviving `tool_result` references a
surviving `tool_use` — no dangling tool blocks remain. -/
theorem c1_pruning_pairing (w : Nat) (h : List HistoryMessage)
    (hw : w < h.length) : pairingInvariant (pruneMessages w h) := by
  rw [pruneMessages_eq_of_lt hw]
  exact pairing_of_filterMap_retain (keptWindow w h)

/-- C1 witness: the amended theorem applied to a concrete two-message history
with a one-message window. -/
theorem c1_pruning_pairing_witness :
    1 < ([⟨"user", [{ type := "text", text := "hi" }]⟩,
          ⟨"assistant", [{ type := "tool_use", id := "a" }]⟩] :
        List HistoryMessage).length ∧
    pairingInvariant
      (pruneMessages 1
        [⟨"user", [{ type := "text", text := "hi" }]⟩,
         ⟨"assistant", [{ type := "tool_use", id := "a" }]⟩]) :=
  ⟨by decide,
   c1_pruning_pairing 1
     [⟨"user", [{ type := "text", text := "hi" }]⟩,
      ⟨"assistant", [{ type := "tool_use", id := "a" }]⟩] (by decide)⟩

/-- C7: pruning is idempotent — `prune w (prune w h) = prune w h` — and a
history of at most `w` messages is returned unchanged. -/
theorem c7_prune_idempotent (h : List HistoryMessage) (w : Nat) :
    pruneMessages w (pruneMessages w h) = pruneMessages w h ∧
    (h.length ≤ w → pruneMessages w h = h) := by
  have hpass : ∀ l : List HistoryMessage, l.length ≤ w → pruneMessages w l = l :=
    fun l hl => by rw [pruneMessages, if_pos hl]
  constructor
  · by_cases hle : h.length ≤ w
    · rw [hpass h hle]
      exact hpass h hle
    · exact hpass (pruneMessages w h) (pruneMessages_length_le_of_lt (by omega))
  · exact hpass h

/-- C7 witness: the idempotence theorem applied to a concrete history, with
the at-most-`w` hypothesis of the second part discharged concretely. -/
theorem c7_prune_idempotent_witness :
    pruneMessages 5 (pruneMessages 5 [⟨"user", [{ type := "text", text := "q" }]⟩]) =
      pruneMessages 5 [⟨"user", [{ type := "text", text := "q" }]⟩] ∧
    pruneMessages 5 [⟨"user", [{ type := "text", text := "q" }]⟩] =
      [⟨"user", [{ type := "text", text := "q" }]⟩] :=
  ⟨(c7_prune_idempotent [⟨"user", [{ type := "text", text := "q" }]⟩] 5).1,
   (c7_prune_idempotent [⟨"user", [{ type := "text", text := "q" }]⟩] 5).2 (by decide)⟩

/-- C10: the asymmetric message-retention rule of `pruneMessages` is
equivalent to the uniform rule "keep a message iff at least one of its blocks
survives block-level filtering", because text blocks always survive the block
filter. -/
theorem c10_retention_rule_uniform (w : Nat) (h : List HistoryMessage) :
    pruneMessages w h = pruneMessagesUniform w h := by
  by_cases hle : h.length ≤ w
  · rw [pruneMessages, if_pos hle, pruneMessagesUniform, if_pos hle]
  · rw [pruneMessages, if_neg hle, pruneMessagesUniform, if_neg hle]
    rw [funext (retainMessage_eq_uniform (collectToolUseIds (keptWindow w h))
      (collectToolResultIds (keptWindow w h)))]

/-- C3: when every attempt reports transient overload, the model call fails
after exactly `maxRetries = 5` retries beyond the first attempt, the sleeps
are 1, 2, 4, 8, 16 seconds (doubling from `initialBackoff`, each below
`maxBackoff`), and their total is `initialBackoff * (2 ^ maxRetries - 1)`;
any non-transient error aborts immediately with no sleep. -/
theorem c3_retry_policy (outcome outcome2 : Nat → CallOutcome)
    (h : ∀ n, outcome n = CallOutcome.overloaded)
    (h2 : outcome2 0 = CallOutcome.failure) :
    maxRetries = 5 ∧
    retryLoop outcome initialBackoff 0 = (RetryResult.overloadedGiveUp, [1, 2, 4, 8, 16]) ∧
    (retryLoop outcome initialBackoff 0).2.length = maxRetries ∧
    (retryLoop outcome initialBackoff 0).2.sum = initialBackoff * (2 ^ maxRetries - 1) ∧
    (∀ s ∈ (retryLoop outcome initialBackoff 0).2, s ≤ maxBackoff) ∧
    retryLoop outcome2 initialBackoff 0 = (RetryResult.fatalError, []) := by
  have e1 : retryLoop outcome initialBackoff 0 =
      (RetryResult.overloadedGiveUp, [1, 2, 4, 8, 16]) := by
    simp [retryLoop, h, initialBackoff, maxRetries, maxBackoff]
  refine ⟨rfl, e1, ?_, ?_, ?_, ?_⟩
  · rw [e1]
    decide
  · rw [e1]
    decide
  · rw [e1]
    decide
  · simp [retryLoop, h2]

/-- C3 witness: the retry theorem applied to the always-overloaded and the
immediately-fatal outcome functions. -/
theorem c3_retry_policy_witness :
    maxRetries = 5 ∧
    retryLoop (fun _ => CallOutcome.overloaded) initialBackoff 0 =
      (RetryResult.overloadedGiveUp, [1, 2, 4, 8, 16]) ∧
    (retryLoop (fun _ => CallOutcome.overloaded) initialBackoff 0).2.length = maxRetries ∧
    (retryLoop (fun _ => CallOutcome.overloaded) initialBackoff 0).2.sum =
      initialBackoff * (2 ^ maxRetries - 1) ∧
    (∀ s ∈ (retryLoop (fun _ => CallOutcome.overloaded) initialBackoff 0).2,
      s ≤ maxBackoff) ∧
    retryLoop (fun _ => CallOutcome.failure) initialBackoff 0 =
      (RetryResult.fatalError, []) :=
  c3_retry_policy (fun _ => CallOutcome.overloaded) (fun _ => CallOutcome.failure)
    (fun _ => rfl) rfl

/-- C2, counterexample: when `runPrompt` fails with a non-transient error the
session-loop iteration returns `exitErr` (the loop body does `return err`),
not a continue step — so the session does not keep running as claimed. -/
theorem c2_counterexample :
    sessionIterate 10 [] (PromptInput.entered "hi") (fun _ => Except.ok false)
      (fun _ => Except.error "provider failure") =
      LoopStep.exitErr "provider failure" := by
  decide

/-- C2 (amended): a non-transient model-call failure during a user turn is
returned by `runPrompt` and then returned again by the session loop, so the
whole session terminates with the error — mid-session fatal errors abort the
process just like startup errors, instead of leaving the loop running. -/
theorem c2_fatal_error_exits_session (w : Nat) (messages : List HistoryMessage)
    (prompt : String) (slash : String → Except String Bool)
    (turn : List HistoryMessage → Except String (List HistoryMessage)) (e : String)
    (hp : ¬ prompt = "")
    (hs : slash prompt = Except.ok false)
    (ht : turn (if 0 < messages.length then pruneMessages w messages else messages) =
      Except.error e) :
    sessionIterate w messages (PromptInput.entered prompt) slash turn =
      LoopStep.exitErr e := by
  simp [sessionIterate, hp, hs, ht]

/-- C2 witness: the amended theorem at a concrete prompt and failing turn. -/
theorem c2_fatal_error_exits_session_witness :
    sessionIterate 10 [] (PromptInput.entered "hello") (fun _ => Except.ok false)
      (fun _ => Except.error "boom") = LoopStep.exitErr "boom" :=
  c2_fatal_error_exits_session 10 [] "hello" (fun _ => Except.ok false)
    (fun _ => Except.error "boom") "boom" (by decide) rfl rfl

/-- C4, counterexample: a tool call naming an unregistered server (`ghost`)
produces NO tool_result block at all — only a printed error — contradicting
the claim that a synthetic error-carrying tool_result is fed back. -/
theorem c4_counterexample :
    (processToolCall ⟨[], fun _ _ => InvokeOutcome.ok none⟩
      ⟨"t1", "ghost__run", "", true⟩).results = [] ∧
    (processToolCall ⟨[], fun _ _ => InvokeOutcome.ok none⟩
      ⟨"t1", "ghost__run", "", true⟩).errors = ["错误：找不到服务器：ghost"] := by
  decide

/-- C4 (amended): an unknown server yields a reported error and no
tool_result (the engine merely continues); a synthetic tool_result whose
content carries the error string is produced only when the tool invocation
itself (`CallTool`) fails. -/
theorem c4_unknown_server_vs_invoke_failure (env : DispatchEnv) (tc : ToolCall)
    (s t m : String) (hr : resolveToolName tc.name = some (s, t)) :
    (s ∉ env.clients →
      processToolCall env tc =
        ⟨[toolUseBlock tc], [], ["错误：找不到服务器：" ++ s]⟩) ∧
    (s ∈ env.clients → tc.argsOk = true → env.invoke s t = InvokeOutcome.fail m →
      processToolCall env tc =
        ⟨[toolUseBlock tc],
         [{ type := "tool_result", toolUseID := tc.id,
            content := [⟨true, invokeErrText t m⟩] }],
         [invokeErrText t m]⟩) := by
  constructor
  · intro hns
    simp [processToolCall, hr, hns]
  · intro hcs ha hi
    simp [processToolCall, hr, hcs, ha, hi]

/-- C4 witness: the amended theorem at a registry without `ghost` and at a
registered server whose tool invocation fails. -/
theorem c4_unknown_server_vs_invoke_failure_witness :
    processToolCall ⟨[], fun _ _ => InvokeOutcome.ok none⟩
        ⟨"t1", "ghost__run", "", true⟩ =
      ⟨[toolUseBlock ⟨"t1", "ghost__run", "", true⟩], [],
       ["错误：找不到服务器：" ++ "ghost"]⟩ ∧
    processToolCall ⟨["calc"], fun _ _ => InvokeOutcome.fail "boom"⟩
        ⟨"t2", "calc__add", "", true⟩ =
      ⟨[toolUseBlock ⟨"t2", "calc__add", "", true⟩],
       [{ type := "tool_result", toolUseID := "t2",
          content := [⟨true, invokeErrText "add" "boom"⟩] }],
       [invokeErrText "add" "boom"]⟩ :=
  ⟨(c4_unknown_server_vs_invoke_failure ⟨[], fun _ _ => InvokeOutcome.ok none⟩
      ⟨"t1", "ghost__run", "", true⟩ "ghost" "run" "m" rfl).1 (by decide),
   (c4_unknown_server_vs_invoke_failure ⟨["calc"], fun _ _ => InvokeOutcome.fail "boom"⟩
      ⟨"t2", "calc__add", "", true⟩ "calc" "add" "boom" rfl).2 (by decide) rfl rfl⟩

/-- C5: a tool call whose name is malformed or whose server is unregistered
yields a reported error and no tool_result block, and the loop continues with
the remaining tool calls of the same turn (their contributions are exactly
those of processing the rest). -/
theorem c5_bad_call_reported_and_skipped (env : DispatchEnv) (tc : ToolCall)
    (rest : List ToolCall)
    (hbad : resolveToolName tc.name = none ∨
      ∃ s t, resolveToolName tc.name = some (s, t) ∧ s ∉ env.clients) :
    (processToolCall env tc).results = [] ∧
    (processToolCall env tc).errors ≠ [] ∧
    processToolCalls env (tc :: rest) =
      ⟨toolUseBlock tc :: (processToolCalls env rest).blocks,
       (processToolCalls env rest).results,
       (processToolCall env tc).errors ++ (processToolCalls env rest).errors⟩ := by
  have hout : (processToolCall env tc).blocks = [toolUseBlock tc] ∧
      (processToolCall env tc).results = [] ∧ (processToolCall env tc).errors ≠ [] := by
    rcases hbad with hnone | ⟨s, t, hsome, hns⟩
    · simp [processToolCall, hnone]
    · simp [processToolCall, hsome, hns]
  refine ⟨hout.2.1, hout.2.2, ?_⟩
  have hcons : processToolCalls env (tc :: rest) =
      ⟨(processToolCall env tc).blocks ++ (processToolCalls env rest).blocks,
       (processToolCall env tc).results ++ (processToolCalls env rest).results,
       (processToolCall env tc).errors ++ (processToolCalls env rest).errors⟩ := rfl
  rw [hcons, hout.1, hout.2.1]
  simp

/-- C5 witness: the theorem at the malformed name `badname` with one further
call in the same turn. -/
theorem c5_bad_call_reported_and_skipped_witness :
    (processToolCall ⟨[], fun _ _ => InvokeOutcome.ok none⟩
      ⟨"i1", "badname", "", true⟩).results = [] ∧
    (processToolCall ⟨[], fun _ _ => InvokeOutcome.ok none⟩
      ⟨"i1", "badname", "", true⟩).errors ≠ [] ∧
    processToolCalls ⟨[], fun _ _ => InvokeOutcome.ok none⟩
        [⟨"i1", "badname", "", true⟩, ⟨"i2", "also__bad", "", true⟩] =
      ⟨toolUseBlock ⟨"i1", "badname", "", true⟩ ::
        (processToolCalls ⟨[], fun _ _ => InvokeOutcome.ok none⟩
          [⟨"i2", "also__bad", "", true⟩]).blocks,
       (processToolCalls ⟨[], fun _ _ => InvokeOutcome.ok none⟩
          [⟨"i2", "also__bad", "", true⟩]).results,
       (processToolCall ⟨[], fun _ _ => InvokeOutcome.ok none⟩
          ⟨"i1", "badname", "", true⟩).errors ++
        (processToolCalls ⟨[], fun _ _ => InvokeOutcome.ok none⟩
          [⟨"i2", "also__bad", "", true⟩]).errors⟩ :=
  c5_bad_call_reported_and_skipped ⟨[], fun _ _ => InvokeOutcome.ok none⟩
    ⟨"i1", "badname", "", true⟩ [⟨"i2", "also__bad", "", true⟩] (Or.inl (by decide))

/-- C6, counterexample: a tool name whose tool part contains a further `__`
does NOT resolve to (text before first separator, rest) — `strings.Split`
yields three parts and the engine rejects the name as malformed. -/
theorem c6_counterexample :
    ¬ resolveToolName "weather__get__forecast" = some ("weather", "get__forecast") := by
  decide

/-- C6 (amended): `weather__get_forecast` resolves to server `weather` and
tool `get_forecast`; `badname` (no `__`) is malformed and produces no
tool_result block; but a name with more than one `__` occurrence is also
rejected as malformed rather than being split on the first separator.
Registry building namespaces tool names with `server __ tool`. -/
theorem c6_tool_name_resolution :
    resolveToolName "weather__get_forecast" = some ("weather", "get_forecast") ∧
    resolveToolName "badname" = none ∧
    (processToolCall ⟨["weather"], fun _ _ => InvokeOutcome.ok none⟩
      ⟨"i1", "badname", "", true⟩).results = [] ∧
    resolveToolName "weather__get__forecast" = none ∧
    (mcpToolsToAnthropicTools "weather" [⟨"get_forecast", "d"⟩]).map (fun t => t.name) =
      ["weather__get_forecast"] := by
  decide

/-- Specification of the `createMCPClients` loop, generalised over the
already-built client map. -/
theorem createMCPClientsAux_spec (l : List ServerSpec) (acc : List String) :
    (∀ e, (createMCPClientsAux l acc).result = Except.error e →
      ∀ c, c ∈ (createMCPClientsAux l acc).created ↔
        c ∈ (createMCPClientsAux l acc).closed) ∧
    (∀ m, (createMCPClientsAux l acc).result = Except.ok m →
      m = acc ++ l.map (fun s => s.name) ∧ (createMCPClientsAux l acc).closed = []) := by
  induction l generalizing acc with
  | nil =>
    constructor
    · intro e he
      cases he
    · intro m hm
      have hma := Except.ok.inj hm
      constructor
      · rw [← hma]
        simp [createMCPClientsAux]
      · rfl
  | cons s rest ih =>
    by_cases hc : s.createOk
    · by_cases hi : s.initOk
      · have heq : createMCPClientsAux (s :: rest) acc =
            createMCPClientsAux rest (acc ++ [s.name]) := by
          simp [createMCPClientsAux, hc, hi]
        rw [heq]
        obtain ⟨ihErr, ihOk⟩ := ih (acc ++ [s.name])
        refine ⟨ihErr, fun m hm => ?_⟩
        obtain ⟨hm1, hm2⟩ := ihOk m hm
        refine ⟨?_, hm2⟩
        rw [hm1]
        simp [hc, hi]
      · have heq : createMCPClientsAux (s :: rest) acc =
            ⟨acc ++ [s.name], s.name :: acc,
             .error ("初始化 MCP 客户端失败（" ++ s.name ++ "）")⟩ := by
          simp [createMCPClientsAux, hc, hi]
        rw [heq]
        constructor
        · intro e _ c
          simp [List.mem_append, List.mem_cons, or_comm]
        · intro m hm
          cases hm
    · have heq : createMCPClientsAux (s :: rest) acc =
          ⟨acc, acc, .error ("创建 MCP 客户端失败（" ++ s.name ++ "）")⟩ := by
        simp [createMCPClientsAux, hc]
      rw [heq]
      constructor
      · intro e _ c
        exact Iff.rfl
      · intro m hm
        cases hm

/-- C8: client setup is transactional — when any server's creation or
initialization fails, every client created so far has been closed (zero live
connections behind the returned error), and on success the returned map has
exactly one client per configured server and nothing was closed. -/
theorem c8_transactional_setup (l : List ServerSpec) :
    (∀ e, (createMCPClients l).result = Except.error e →
      ∀ c, c ∈ (createMCPClients l).created ↔ c ∈ (createMCPClients l).closed) ∧
    (∀ m, (createMCPClients l).result = Except.ok m →
      m = l.map (fun s => s.name) ∧ (createMCPClients l).closed = []) := by
  have h := createMCPClientsAux_spec l []
  simpa [createMCPClients] using h

/-- C8 witness: three servers where the third fails to connect (all created
clients are closed), and a two-server success (both clients in the map,
nothing closed). -/
theorem c8_transactional_setup_witness :
    (∀ c, c ∈ (createMCPClients
        [⟨"a", true, true⟩, ⟨"b", true, true⟩, ⟨"c", false, true⟩]).created ↔
      c ∈ (createMCPClients
        [⟨"a", true, true⟩, ⟨"b", true, true⟩, ⟨"c", false, true⟩]).closed) ∧
    (["x", "y"] = ([⟨"x", true, true⟩, ⟨"y", true, true⟩] :
        List ServerSpec).map (fun s => s.name) ∧
      (createMCPClients [⟨"x", true, true⟩, ⟨"y", true, true⟩]).closed = []) :=
  ⟨(c8_transactional_setup
      [⟨"a", true, true⟩, ⟨"b", true, true⟩, ⟨"c", false, true⟩]).1
      ("创建 MCP 客户端失败（" ++ "c" ++ "）") (by decide),
   (c8_transactional_setup [⟨"x", true, true⟩, ⟨"y", true, true⟩]).2
      ["x", "y"] (by decide)⟩

/-- C9: a successful tool invocation whose result has nil content leaves the
tool_use block in the assistant message but produces no tool_result block, no
printed error and no tool message; the continuation model call happens iff
some other call of the same turn produced a result. -/
theorem c9_nil_content_dangling (env : DispatchEnv) (tc : ToolCall) (s t : String)
    (rest : List ToolCall) (role text : String) (ms : List HistoryMessage)
    (hr : resolveToolName tc.name = some (s, t))
    (hc : s ∈ env.clients)
    (ha : tc.argsOk = true)
    (hi : env.invoke s t = InvokeOutcome.ok none) :
    processToolCall env tc = ⟨[toolUseBlock tc], [], []⟩ ∧
    processToolCalls env (tc :: rest) =
      ⟨toolUseBlock tc :: (processToolCalls env rest).blocks,
       (processToolCalls env rest).results,
       (processToolCalls env rest).errors⟩ ∧
    (assembleTurn env ⟨role, text, tc :: rest⟩ ms).1 =
      ms ++ [⟨role, (if text = "" then [] else [{ type := "text", text := text }]) ++
        (toolUseBlock tc :: (processToolCalls env rest).blocks)⟩] ++
      (processToolCalls env rest).results.map (fun tr => ⟨"tool", [tr]⟩) ∧
    (assembleTurn env ⟨role, text, tc :: rest⟩ ms).2 =
      !(processToolCalls env rest).results.isEmpty := by
  have h1 : processToolCall env tc = ⟨[toolUseBlock tc], [], []⟩ := by
    simp [processToolCall, hr, hc, ha, hi]
  have hcons : processToolCalls env (tc :: rest) =
      ⟨(processToolCall env tc).blocks ++ (processToolCalls env rest).blocks,
       (processToolCall env tc).results ++ (processToolCalls env rest).results,
       (processToolCall env tc).errors ++ (processToolCalls env rest).errors⟩ := rfl
  have h2 : processToolCalls env (tc :: rest) =
      ⟨toolUseBlock tc :: (processToolCalls env rest).blocks,
       (processToolCalls env rest).results,
       (processToolCalls env rest).errors⟩ := by
    rw [hcons, h1]
    simp
  refine ⟨h1, h2, ?_, ?_⟩
  · simp [assembleTurn, h2]
  · simp [assembleTurn, h2]

/-- C9 witness: the theorem at a registered server whose invocation succeeds
with nil content and no further calls in the turn. -/
theorem c9_nil_content_dangling_witness :
    processToolCall ⟨["srv"], fun _ _ => InvokeOutcome.ok none⟩
        ⟨"id1", "srv__do", "", true⟩ =
      ⟨[toolUseBlock ⟨"id1", "srv__do", "", true⟩], [], []⟩ ∧
    processToolCalls ⟨["srv"], fun _ _ => InvokeOutcome.ok none⟩
        [⟨"id1", "srv__do", "", true⟩] =
      ⟨toolUseBlock ⟨"id1", "srv__do", "", true⟩ ::
        (processToolCalls ⟨["srv"], fun _ _ => InvokeOutcome.ok none⟩ []).blocks,
       (processToolCalls ⟨["srv"], fun _ _ => InvokeOutcome.ok none⟩ []).results,
       (processToolCalls ⟨["srv"], fun _ _ => InvokeOutcome.ok none⟩ []).errors⟩ ∧
    (assembleTurn ⟨["srv"], fun _ _ => InvokeOutcome.ok none⟩
        ⟨"assistant", "", [⟨"id1", "srv__do", "", true⟩]⟩ []).1 =
      [] ++ [⟨"assistant", (if ("" : String) = "" then [] else
          [{ type := "text", text := "" }]) ++
        (toolUseBlock ⟨"id1", "srv__do", "", true⟩ ::
          (processToolCalls ⟨["srv"], fun _ _ => InvokeOutcome.ok none⟩ []).blocks)⟩] ++
      (processToolCalls ⟨["srv"], fun _ _ => InvokeOutcome.ok none⟩ []).results.map
        (fun tr => ⟨"tool", [tr]⟩) ∧
    (assembleTurn ⟨["srv"], fun _ _ => InvokeOutcome.ok none⟩
        ⟨"assistant", "", [⟨"id1", "srv__do", "", true⟩]⟩ []).2 =
      !(processToolCalls ⟨["srv"], fun _ _ => InvokeOutcome.ok none⟩ []).results.isEmpty :=
  c9_nil_content_dangling ⟨["srv"], fun _ _ => InvokeOutcome.ok none⟩
    ⟨"id1", "srv__do", "", true⟩ "srv" "do" [] "assistant" "" []
    (by decide) (by decide) rfl rfl

end SearchMind
